import Mathlib

/-!
Shallow embedding of `src/secvarctl.c` (the secvarctl entry point): the
backend registry, the platform backend prober, the flag/mode parser and
the command dispatcher, together with proofs of the specification claims.

Modelling conventions:
- C strings (assumed NUL-free) are Lean `String`s; `strncmp (a, b, n) == 0`
  is embedded as equality of the first `n` characters of the two strings.
- Output (printf / prlog at warning or error level) is modelled as a trace
  of `Event`s; handler invocation is also recorded as an `Event`.
- The external file helpers `is_file` / `get_data_from_file` (declared in
  headers that are not part of this unit) are modelled by the abstract
  `FileProbe` environment: the status file is absent, unreadable, or has
  some contents.
- The single undefined behaviour in the unit (reading `backends[0].name`
  with an empty registry) is modelled by returning `none` at the outer
  `Option` layer of `get_backend` and `main`.
-/

set_option autoImplicit false

namespace Secvarctl

/-- Modelled from the spec: exit codes are defined in `secvarctl.h`, which is
not part of this unit; the spec requires only that SUCCESS, ARG_PARSE_FAIL
and UNKNOWN_COMMAND are distinct values. SUCCESS is the conventional 0. -/
def SUCCESS : Int := 0

/-- Modelled from the spec: distinct failure code for malformed invocations
(missing subcommand / zero arguments). -/
def ARG_PARSE_FAIL : Int := 1

/-- Modelled from the spec: distinct status for an unmatched subcommand
token; also used as the sentinel initial value of `rc` in the dispatch
loop of `main`. -/
def UNKNOWN_COMMAND : Int := 2

/-- Observable output of a run: usage text, help text, warning-level and
error-level log lines, and handler invocations (with the argc/argv the
handler receives). -/
inductive Event where
  | usageText : Event
  | helpText : Event
  | warning (msg : String) : Event
  | error (msg : String) : Event
  | call (cmdName : String) (argc : Nat) (argv : List String) : Event
  deriving DecidableEq

/-- Embeds `usage ()`: prints the usage text. -/
def usage : List Event := [Event.usageText]

/-- Embeds `help ()`: prints the help text and then calls `usage ()`. -/
def help : List Event := [Event.helpText, Event.usageText]

/-- Embeds `struct command`: a subcommand name and its handler
`int (*func)(int argc, char **argv)`. Handlers are opaque to this unit. -/
structure Command where
  name : String
  func : Nat → List String → Int

/-- Embeds `struct backend`: a backend name and its ordered command table
(`countCmds` is the table length). -/
structure Backend where
  name : String
  commands : List Command

def HOST_BACKEND : String := "ibm,edk2-compat-v1"

def GUEST_BACKEND : String := "ibm,plpks-sb-v1"

/-- The host registry entry, guarded by `SECVAR_HOST_BACKEND`; its command
table `edk2_compat_command_table` is external, so it is a parameter. -/
def hostBackend (tbl : List Command) : Backend :=
  { name := HOST_BACKEND, commands := tbl }

/-- The guest registry entry, guarded by `SECVAR_GUEST_BACKEND`; its command
table `guest_command_table` is external, so it is a parameter. -/
def guestBackend (tbl : List Command) : Backend :=
  { name := GUEST_BACKEND, commands := tbl }

/-- Embeds the static `backends[]` array: built from whichever of the two
backends are compiled in (`SECVAR_HOST_BACKEND` / `SECVAR_GUEST_BACKEND`),
host entry first. -/
def backends (hostCompiled guestCompiled : Bool) (htbl gtbl : List Command) : List Backend :=
  (if hostCompiled then [hostBackend htbl] else [])
    ++ (if guestCompiled then [guestBackend gtbl] else [])

/-- Embeds `strncmp (a, b, n) == 0` for NUL-free C strings: the first `n`
characters of the two strings agree (a string shorter than `n` must then be
matched exactly, as the NUL terminator stops the comparison). -/
def strncmp_eq (a b : String) (n : Nat) : Bool :=
  a.toList.take n == b.toList.take n

/-- Embeds `is_known_backend`: scan the registry in order and return the
first backend whose name, compared by `strncmp` over that name's length, is
a prefix of `buff`. `some b` is the `BACKEND_FOUND` outcome writing `b`
through the out-parameter; `none` is `UNKNOWN_BACKEND`. The `PR_NOTICE`
log line (suppressed at the default verbosity) is not modelled. -/
def is_known_backend (bks : List Backend) (buff : String) : Option Backend :=
  bks.find? (fun b => strncmp_eq buff b.name b.name.length)

/-- Environment of `get_backend`: the fixed platform status file is absent
(`is_file` fails), unreadable (`get_data_from_file` returns NULL), or holds
some contents (of which at most `max_buff_size` bytes are read). -/
inductive FileProbe where
  | absent : FileProbe
  | noData : FileProbe
  | data (contents : String) : FileProbe
  deriving DecidableEq

/-- Embeds the `max_buff_size` computation in `get_backend`: it is seeded
with `strlen (backends[0].name)` and then maximised over the registry, so
with an empty registry the seed read is out of bounds (`none`). -/
def maxNameLen (bks : List Backend) : Option Nat :=
  match bks with
  | [] => none
  | b0 :: _ => some (bks.foldl (fun m b => max m b.name.length) b0.name.length)

/-- Warning printed by `get_backend` when the status file is absent. -/
def warnNoSupport : String := "WARNING!! platform does not support secure variables"

/-- Warning printed by `get_backend` when the read yields no data. -/
def warnNoData : String :=
  "WARNING!! could not extract data from the platform format file"

/-- Warning printed by `get_backend` when the data matches no backend. -/
def warnBadFormat : String :=
  "WARNING!! the platform format file does not contain known backend format."

/-- Embeds `get_backend`: probe the platform status file and resolve the
active backend, warning (never hard-failing) in each inconclusive outcome.
The outer `Option` is `none` exactly when the C code's behaviour is
undefined (empty registry with an existing status file). -/
def get_backend (bks : List Backend) (fp : FileProbe) : Option (Option Backend × List Event) :=
  match fp with
  | FileProbe.absent => some (none, [Event.warning warnNoSupport])
  | FileProbe.noData =>
    match maxNameLen bks with
    | none => none
    | some _ => some (none, [Event.warning warnNoData])
  | FileProbe.data s =>
    match maxNameLen bks with
    | none => none
    | some n =>
      match is_known_backend bks (String.mk (s.toList.take n)) with
      | some b => some (some b, [])
      | none => some (none, [Event.warning warnBadFormat])

/-- Warning printed in `main` when the mode token is not host or guest;
the C format string is "ERROR: %s is unkonwn mode" (typo as in source). -/
def warnUnknownMode (m : String) : String := "ERROR: " ++ m ++ " is unkonwn mode"

/-- Warning printed in `main` when `-m` has no following token. -/
def warnModeNeeded : String := "ERROR: mode name is needed"

/-- Error printed in `main` when no subcommand token remains. -/
def errNoCommands : String := "ERROR: commands not found"

/-- Warning printed on the fallback path when the registry resolves the
requested mode's default backend name. -/
def warnAssuming (name : String) : String :=
  "WARNING: unsupported backend detected, assuming " ++ name

/-- Warning printed when neither probe nor fallback resolves a backend;
`secvarctl_mode` of 1 is guest, 0 is host. -/
def warnModeDisabled (isGuest : Bool) : String :=
  "WARNING!! " ++ (if isGuest then "guest" else "host") ++ " mode is not enabled."

/-- Error printed when the subcommand matches no command table entry. -/
def errUnknownCommand (s : String) : String := "ERROR: unknown command " ++ s

/-- Embeds the C test `*argv[0] == '-'` of the flag loop: the token's first
character (the NUL terminator for an empty token) is a dash. -/
def isFlagToken (s : String) : Bool :=
  match s.toList with
  | [] => false
  | c :: _ => c == '-'

/-- Result of the leading-flag loop of `main`: either an early `return`
with an exit code, or fall-through to the subcommand phase carrying the
remaining tokens, the resolved `(secvarctl_mode, backend_name)` pair
(`none` models `secvarctl_mode == -1`), and the verbose flag. -/
inductive FlagsResult where
  | exit (rc : Int) (evs : List Event) : FlagsResult
  | cont (args : List String) (mode : Option (Bool × String)) (verboseDebug : Bool)
      (evs : List Event) : FlagsResult
  deriving DecidableEq

/-- Embeds the flag loop of `main` (the `for (; argc > 0 && *argv[0] == '-'; ...)`
loop): consume leading dash tokens, handling usage / help / mode / verbose,
and exit early on unknown flags or bad mode values. `secvarctl_mode` and
`backend_name` are always assigned together in the source, so they are
modelled as one optional pair. -/
def parseFlags : List String → Option (Bool × String) → Bool → List Event → FlagsResult
  | [], mode, vb, evs => FlagsResult.cont [] mode vb evs
  | a :: rest, mode, vb, evs =>
    if isFlagToken a = false then FlagsResult.cont (a :: rest) mode vb evs
    else if a = "--usage" then FlagsResult.exit SUCCESS (evs ++ usage)
    else if a = "--help" ∨ a = "-h" then FlagsResult.exit SUCCESS (evs ++ help)
    else if a = "-m" ∨ a = "--mode" then
      match rest with
      | [] => FlagsResult.exit SUCCESS (evs ++ [Event.warning warnModeNeeded] ++ usage)
      | m :: rest2 =>
        if m = "guest" then parseFlags rest2 (some (true, GUEST_BACKEND)) vb evs
        else if m = "host" then parseFlags rest2 (some (false, HOST_BACKEND)) vb evs
        else FlagsResult.exit SUCCESS (evs ++ [Event.warning (warnUnknownMode m)] ++ usage)
    else if a = "-v" ∨ a = "--verbose" then parseFlags rest mode true evs
    else FlagsResult.exit SUCCESS (evs ++ usage)

/-- Embeds the command-dispatch portion of `main` (the loop over
`backend->commands` plus the final `UNKNOWN_COMMAND` check): find the first
command whose name matches the subcommand under a 32-character bounded
comparison. -/
def findCmd (cmds : List Command) (sub : String) : Option Command :=
  cmds.find? (fun c => strncmp_eq sub c.name 32)

/-- Embeds lines 247-266 of `main`: `rc` starts at `UNKNOWN_COMMAND`, the
first matching handler (if any) is invoked with the remaining argc/argv
(argv[0] being the subcommand token), and the unknown-command error plus
usage text are printed whenever the final `rc` equals `UNKNOWN_COMMAND`. -/
def dispatch (bk : Backend) (args : List String) (evs : List Event) : Int × List Event :=
  match findCmd bk.commands (args.head?.getD "") with
  | some c =>
    if c.func args.length args = UNKNOWN_COMMAND then
      (c.func args.length args,
        evs ++ [Event.call c.name args.length args,
          Event.error (errUnknownCommand (args.head?.getD "")), Event.usageText])
    else (c.func args.length args, evs ++ [Event.call c.name args.length args])
  | none =>
    (UNKNOWN_COMMAND, evs ++ [Event.error (errUnknownCommand (args.head?.getD "")), Event.usageText])

/-- Embeds `main`: `argv` includes the program name (so `argc = argv.length`).
The registry and the platform file are environment parameters. The result is
the exit code and the output trace; the outer `Option` is `none` exactly when
the run reaches the undefined out-of-bounds read in `get_backend`. -/
def main (bks : List Backend) (fp : FileProbe) (argv : List String) :
    Option (Int × List Event) :=
  if argv.length < 2 then some (ARG_PARSE_FAIL, usage)
  else
    match parseFlags argv.tail none false [] with
    | FlagsResult.exit rc evs => some (rc, evs)
    | FlagsResult.cont args mode _vb evs =>
      match args with
      | [] => some (ARG_PARSE_FAIL, evs ++ [Event.error errNoCommands] ++ usage)
      | _sub :: _ =>
        match mode with
        | none => some (SUCCESS, evs ++ usage)
        | some (isGuest, backendName) =>
          match get_backend bks fp with
          | none => none
          | some (some bk, pevs) => some (dispatch bk args (evs ++ pevs))
          | some (none, pevs) =>
            match is_known_backend bks backendName with
            | some bk =>
              some (dispatch bk args (evs ++ pevs ++ [Event.warning (warnAssuming bk.name)]))
            | none =>
              some (SUCCESS, evs ++ pevs ++ [Event.warning (warnModeDisabled isGuest)])

/-- True on handler-invocation events. -/
def Event.isCall : Event → Bool
  | Event.call _ _ _ => true
  | _ => false

/-- Number of handler invocations recorded in a trace. -/
def countCalls (evs : List Event) : Nat := evs.countP (fun e => e.isCall)

/-- Event trace carried by either constructor of `FlagsResult`. -/
def FlagsResult.events : FlagsResult → List Event
  | FlagsResult.exit _ evs => evs
  | FlagsResult.cont _ _ _ evs => evs

/-- Sample command used to exercise the dispatcher on concrete inputs: an
opaque handler returning 7. -/
def readCmd : Command := { name := "read", func := fun _ _ => 7 }

/-- Sample backend holding `readCmd`. -/
def sampleBackend : Backend := { name := "sample", commands := [readCmd] }

/-- Sample command whose handler returns the `UNKNOWN_COMMAND` value itself,
exercising the sentinel collision in the dispatch loop. -/
def confusingCmd : Command := { name := "read", func := fun _ _ => UNKNOWN_COMMAND }

/-- Sample backend holding `confusingCmd`. -/
def confusingBackend : Backend := { name := "confusing", commands := [confusingCmd] }

/-! Helper lemmas. -/

theorem dispatch_eq_found (bk : Backend) (sub : String) (rest : List String) (evs : List Event)
    (c : Command) (hc : findCmd bk.commands sub = some c) :
    dispatch bk (sub :: rest) evs
      = if c.func (sub :: rest).length (sub :: rest) = UNKNOWN_COMMAND then
          (c.func (sub :: rest).length (sub :: rest),
            evs ++ [Event.call c.name (sub :: rest).length (sub :: rest),
              Event.error (errUnknownCommand sub), Event.usageText])
        else (c.func (sub :: rest).length (sub :: rest),
            evs ++ [Event.call c.name (sub :: rest).length (sub :: rest)]) := by
  simp only [dispatch, List.head?_cons, Option.getD_some, hc]

theorem dispatch_eq_notfound (bk : Backend) (sub : String) (rest : List String)
    (evs : List Event) (hc : findCmd bk.commands sub = none) :
    dispatch bk (sub :: rest) evs
      = (UNKNOWN_COMMAND, evs ++ [Event.error (errUnknownCommand sub), Event.usageText]) := by
  simp only [dispatch, List.head?_cons, Option.getD_some, hc]

theorem strncmp_eq_self_len (buff p : String) :
    strncmp_eq buff p p.length = true ↔ p.toList <+: buff.toList := by
  unfold strncmp_eq
  have hlen : p.length = p.toList.length := rfl
  rw [hlen, List.take_length, beq_iff_eq, List.prefix_iff_eq_take]
  exact eq_comm

theorem strncmp_eq_self (s : String) (n : Nat) : strncmp_eq s s n = true := by
  unfold strncmp_eq
  exact beq_self_eq_true _

theorem find?_split {α : Type} (p : α → Bool) :
    ∀ (l : List α) (a : α), l.find? p = some a →
      ∃ l1 l2, l = l1 ++ a :: l2 ∧ p a = true ∧ ∀ x ∈ l1, p x = false := by
  intro l
  induction l with
  | nil => intro a h; simp [List.find?] at h
  | cons x xs ih =>
    intro a h
    by_cases hx : p x = true
    · rw [List.find?_cons_of_pos _ hx] at h
      cases h
      exact ⟨[], xs, rfl, hx, by simp⟩
    · rw [List.find?_cons_of_neg _ hx] at h
      obtain ⟨l1, l2, hl, hpa, hall⟩ := ih a h
      refine ⟨x :: l1, l2, by rw [hl]; rfl, hpa, ?_⟩
      intro y hy
      rcases List.mem_cons.mp hy with h1 | h2
      · subst h1; simpa using hx
      · exact hall y h2

theorem parseFlags_countCalls :
    ∀ (args : List String) (mode : Option (Bool × String)) (vb : Bool) (evs : List Event),
      countCalls (parseFlags args mode vb evs).events = countCalls evs := by
  intro args mode vb evs
  induction args, mode, vb, evs using parseFlags.induct <;>
    (rw [parseFlags.eq_def];
     simp_all [FlagsResult.events, countCalls, usage, help, Event.isCall,
       List.countP_append, List.countP_cons])

theorem parseFlags_mode_inv (P : Option (Bool × String) → Prop)
    (hH : P (some (false, HOST_BACKEND))) (hG : P (some (true, GUEST_BACKEND))) :
    ∀ (args : List String) (mode : Option (Bool × String)) (vb : Bool) (evs : List Event),
      P mode →
      ∀ (args2 : List String) (mode2 : Option (Bool × String)) (vb2 : Bool) (evs2 : List Event),
        parseFlags args mode vb evs = FlagsResult.cont args2 mode2 vb2 evs2 → P mode2 := by
  have key : ∀ (n : Nat) (args : List String), args.length ≤ n →
      ∀ (mode : Option (Bool × String)) (vb : Bool) (evs : List Event), P mode →
      ∀ (args2 : List String) (mode2 : Option (Bool × String)) (vb2 : Bool) (evs2 : List Event),
        parseFlags args mode vb evs = FlagsResult.cont args2 mode2 vb2 evs2 → P mode2 := by
    intro n
    induction n with
    | zero =>
      intro args hlen mode vb evs hP args2 mode2 vb2 evs2 h
      have hemp : args = [] := List.length_eq_zero.mp (Nat.le_zero.mp hlen)
      subst hemp
      rw [parseFlags.eq_1] at h
      cases h
      exact hP
    | succ n ih =>
      intro args hlen mode vb evs hP args2 mode2 vb2 evs2 h
      match args with
      | [] =>
        rw [parseFlags.eq_1] at h
        cases h
        exact hP
      | [a] =>
        rw [parseFlags.eq_2] at h
        by_cases h1 : isFlagToken a = false
        · rw [if_pos h1] at h; cases h; exact hP
        · rw [if_neg h1] at h
          by_cases h2 : a = "--usage"
          · rw [if_pos h2] at h; cases h
          · rw [if_neg h2] at h
            by_cases h3 : a = "--help" ∨ a = "-h"
            · rw [if_pos h3] at h; cases h
            · rw [if_neg h3] at h
              by_cases h4 : a = "-m" ∨ a = "--mode"
              · rw [if_pos h4] at h; cases h
              · rw [if_neg h4] at h
                by_cases h5 : a = "-v" ∨ a = "--verbose"
                · rw [if_pos h5] at h
                  rw [parseFlags.eq_1] at h
                  cases h
                  exact hP
                · rw [if_neg h5] at h; cases h
      | a :: m :: rest2 =>
        rw [parseFlags.eq_3] at h
        by_cases h1 : isFlagToken a = false
        · rw [if_pos h1] at h; cases h; exact hP
        · rw [if_neg h1] at h
          by_cases h2 : a = "--usage"
          · rw [if_pos h2] at h; cases h
          · rw [if_neg h2] at h
            by_cases h3 : a = "--help" ∨ a = "-h"
            · rw [if_pos h3] at h; cases h
            · rw [if_neg h3] at h
              by_cases h4 : a = "-m" ∨ a = "--mode"
              · rw [if_pos h4] at h
                by_cases h5 : m = "guest"
                · rw [if_pos h5] at h
                  exact ih rest2 (by simp only [List.length_cons] at hlen ⊢; omega) _ vb evs hG _ _ _ _ h
                · rw [if_neg h5] at h
                  by_cases h6 : m = "host"
                  · rw [if_pos h6] at h
                    exact ih rest2 (by simp only [List.length_cons] at hlen ⊢; omega) _ vb evs hH _ _ _ _ h
                  · rw [if_neg h6] at h; cases h
              · rw [if_neg h4] at h
                by_cases h5 : a = "-v" ∨ a = "--verbose"
                · rw [if_pos h5] at h
                  exact ih (m :: rest2) (by simp only [List.length_cons] at hlen ⊢; omega) mode true evs hP _ _ _ _ h
                · rw [if_neg h5] at h; cases h
  intro args mode vb evs hP args2 mode2 vb2 evs2 h
  exact key args.length args le_rfl mode vb evs hP args2 mode2 vb2 evs2 h

theorem get_backend_no_calls (bks : List Backend) (fp : FileProbe) (o : Option Backend)
    (pevs : List Event) (h : get_backend bks fp = some (o, pevs)) : countCalls pevs = 0 := by
  cases fp with
  | absent =>
    simp only [get_backend, Option.some.injEq, Prod.mk.injEq] at h
    rw [← h.2]
    simp [countCalls, Event.isCall]
  | noData =>
    cases hmx : maxNameLen bks with
    | none => simp [get_backend, hmx] at h
    | some n =>
      simp only [get_backend, hmx, Option.some.injEq, Prod.mk.injEq] at h
      rw [← h.2]
      simp [countCalls, Event.isCall]
  | data s =>
    cases hmx : maxNameLen bks with
    | none => simp [get_backend, hmx] at h
    | some n =>
      cases hk : is_known_backend bks (String.mk (s.toList.take n)) with
      | some b =>
        simp only [get_backend, hmx, hk, Option.some.injEq, Prod.mk.injEq] at h
        rw [← h.2]
        simp [countCalls]
      | none =>
        simp only [get_backend, hmx, hk, Option.some.injEq, Prod.mk.injEq] at h
        rw [← h.2]
        simp [countCalls, Event.isCall]

theorem dispatch_countCalls (bk : Backend) (args : List String) (evs : List Event) :
    countCalls (dispatch bk args evs).2 ≤ countCalls evs + 1 := by
  cases hf : findCmd bk.commands (args.head?.getD "") with
  | none =>
    simp [dispatch, hf, countCalls, List.countP_append, List.countP_cons, Event.isCall]
  | some c =>
    by_cases hrc : c.func args.length args = UNKNOWN_COMMAND <;>
      simp [dispatch, hf, hrc, countCalls, List.countP_append, List.countP_cons, Event.isCall]

theorem main_eq_of_short (bks : List Backend) (fp : FileProbe) (argv : List String)
    (h : argv.length < 2) : main bks fp argv = some (ARG_PARSE_FAIL, usage) := by
  unfold main
  rw [if_pos h]

theorem main_eq_of_exit (bks : List Backend) (fp : FileProbe) (argv : List String)
    (rc : Int) (evs : List Event) (h2 : 2 ≤ argv.length)
    (hp : parseFlags argv.tail none false [] = FlagsResult.exit rc evs) :
    main bks fp argv = some (rc, evs) := by
  unfold main
  rw [if_neg (by omega)]
  simp only [hp]

theorem main_eq_of_no_subcommand (bks : List Backend) (fp : FileProbe) (argv : List String)
    (mode : Option (Bool × String)) (vb : Bool) (evs : List Event) (h2 : 2 ≤ argv.length)
    (hp : parseFlags argv.tail none false [] = FlagsResult.cont [] mode vb evs) :
    main bks fp argv = some (ARG_PARSE_FAIL, evs ++ [Event.error errNoCommands] ++ usage) := by
  unfold main
  rw [if_neg (by omega)]
  simp only [hp]

theorem main_eq_of_no_mode (bks : List Backend) (fp : FileProbe) (argv : List String)
    (sub : String) (rest : List String) (vb : Bool) (evs : List Event) (h2 : 2 ≤ argv.length)
    (hp : parseFlags argv.tail none false [] = FlagsResult.cont (sub :: rest) none vb evs) :
    main bks fp argv = some (SUCCESS, evs ++ usage) := by
  unfold main
  rw [if_neg (by omega)]
  simp only [hp]

theorem main_eq_of_probe_found (bks : List Backend) (fp : FileProbe) (argv : List String)
    (sub : String) (rest : List String) (g : Bool) (bn : String) (vb : Bool)
    (evs : List Event) (bk : Backend) (pevs : List Event) (h2 : 2 ≤ argv.length)
    (hp : parseFlags argv.tail none false [] = FlagsResult.cont (sub :: rest) (some (g, bn)) vb evs)
    (hg : get_backend bks fp = some (some bk, pevs)) :
    main bks fp argv = some (dispatch bk (sub :: rest) (evs ++ pevs)) := by
  unfold main
  rw [if_neg (by omega)]
  simp only [hp, hg]

theorem main_eq_of_fallback_found (bks : List Backend) (fp : FileProbe) (argv : List String)
    (sub : String) (rest : List String) (g : Bool) (bn : String) (vb : Bool)
    (evs : List Event) (bk : Backend) (pevs : List Event) (h2 : 2 ≤ argv.length)
    (hp : parseFlags argv.tail none false [] = FlagsResult.cont (sub :: rest) (some (g, bn)) vb evs)
    (hg : get_backend bks fp = some (none, pevs))
    (hk : is_known_backend bks bn = some bk) :
    main bks fp argv
      = some (dispatch bk (sub :: rest) (evs ++ pevs ++ [Event.warning (warnAssuming bk.name)])) := by
  unfold main
  rw [if_neg (by omega)]
  simp only [hp, hg, hk]

theorem main_eq_of_fallback_miss (bks : List Backend) (fp : FileProbe) (argv : List String)
    (sub : String) (rest : List String) (g : Bool) (bn : String) (vb : Bool)
    (evs : List Event) (pevs : List Event) (h2 : 2 ≤ argv.length)
    (hp : parseFlags argv.tail none false [] = FlagsResult.cont (sub :: rest) (some (g, bn)) vb evs)
    (hg : get_backend bks fp = some (none, pevs))
    (hk : is_known_backend bks bn = none) :
    main bks fp argv = some (SUCCESS, evs ++ pevs ++ [Event.warning (warnModeDisabled g)]) := by
  unfold main
  rw [if_neg (by omega)]
  simp only [hp, hg, hk]

theorem main_eq_of_probe_undef (bks : List Backend) (fp : FileProbe) (argv : List String)
    (sub : String) (rest : List String) (g : Bool) (bn : String) (vb : Bool)
    (evs : List Event) (h2 : 2 ≤ argv.length)
    (hp : parseFlags argv.tail none false [] = FlagsResult.cont (sub :: rest) (some (g, bn)) vb evs)
    (hg : get_backend bks fp = none) :
    main bks fp argv = none := by
  unfold main
  rw [if_neg (by omega)]
  simp only [hp, hg]

theorem countCalls_append (a b : List Event) :
    countCalls (a ++ b) = countCalls a + countCalls b :=
  List.countP_append _ _ _

theorem foldl_max_spec (l : List Nat) :
    ∀ a : Nat, (∀ x ∈ l, x ≤ l.foldl max a) ∧ a ≤ l.foldl max a ∧
      (l.foldl max a = a ∨ l.foldl max a ∈ l) := by
  induction l with
  | nil => intro a; simp
  | cons x xs ih =>
    intro a
    obtain ⟨h1, h2, h3⟩ := ih (max a x)
    have hfold : (x :: xs).foldl max a = xs.foldl max (max a x) := rfl
    refine ⟨?_, ?_, ?_⟩
    · intro y hy
      rw [hfold]
      rcases List.mem_cons.mp hy with rfl | hy2
      · exact le_trans (le_max_right a y) h2
      · exact h1 y hy2
    · rw [hfold]
      exact le_trans (le_max_left a x) h2
    · rw [hfold]
      rcases h3 with h | h
      · rcases max_choice a x with hm | hm
        · left; rw [h, hm]
        · right; rw [h, hm]; exact List.mem_cons_self x xs
      · right; exact List.mem_cons_of_mem x h

theorem maxNameLen_spec (bks : List Backend) (hne : bks ≠ []) :
    ∃ n, maxNameLen bks = some n ∧ (∀ b ∈ bks, b.name.length ≤ n) ∧
      ∃ b ∈ bks, b.name.length = n := by
  cases bks with
  | nil => cases hne rfl
  | cons b0 rest =>
    have hmax : maxNameLen (b0 :: rest)
        = some (((b0 :: rest).map (fun b => b.name.length)).foldl max b0.name.length) := by
      show some ((b0 :: rest).foldl (fun m b => max m b.name.length) b0.name.length) = _
      rw [List.foldl_map]
    obtain ⟨h1, h2, h3⟩ :=
      foldl_max_spec ((b0 :: rest).map (fun b => b.name.length)) b0.name.length
    refine ⟨_, hmax, ?_, ?_⟩
    · intro b hb
      exact h1 _ (List.mem_map_of_mem _ hb)
    · rcases h3 with h | h
      · exact ⟨b0, List.mem_cons_self _ _, by rw [h]⟩
      · obtain ⟨b, hb, hbl⟩ := List.mem_map.mp h
        exact ⟨b, hb, hbl⟩

/-! Claim theorems. -/

/-- Claim C1: for every resolved Backend and every remaining argument vector
whose first token is the subcommand, the dispatcher compares the subcommand
against each Command name in the table in registration order with a
comparison bounded at 32 characters, invokes the first matching handler with
the remaining argc/argv (argv[0] being the subcommand token itself), and when
reached through `main` returns that handler's status as the process exit
status; if no entry matches, it returns UNKNOWN_COMMAND and prints an error
plus usage text. -/
theorem dispatch_first_match_spec (bk : Backend) (sub : String) (rest : List String)
    (evs : List Event) :
    (∀ c, findCmd bk.commands sub = some c →
      (∃ pre post, bk.commands = pre ++ c :: post ∧ strncmp_eq sub c.name 32 = true ∧
          ∀ d ∈ pre, strncmp_eq sub d.name 32 = false) ∧
      (dispatch bk (sub :: rest) evs).1 = c.func (sub :: rest).length (sub :: rest) ∧
      Event.call c.name (sub :: rest).length (sub :: rest) ∈ (dispatch bk (sub :: rest) evs).2) ∧
    ((∀ c ∈ bk.commands, strncmp_eq sub c.name 32 = false) →
      dispatch bk (sub :: rest) evs
        = (UNKNOWN_COMMAND, evs ++ [Event.error (errUnknownCommand sub), Event.usageText])) ∧
    (∀ (bks : List Backend) (fp : FileProbe) (argv : List String) (g : Bool) (bn : String)
        (vb : Bool) (evs0 pevs : List Event),
      2 ≤ argv.length →
      parseFlags argv.tail none false [] = FlagsResult.cont (sub :: rest) (some (g, bn)) vb evs0 →
      get_backend bks fp = some (some bk, pevs) →
      main bks fp argv = some (dispatch bk (sub :: rest) (evs0 ++ pevs))) := by
  refine ⟨?_, ?_, ?_⟩
  · intro c hc
    refine ⟨?_, ?_, ?_⟩
    · obtain ⟨pre, post, hsplit, hpc, hall⟩ := find?_split _ _ _ hc
      exact ⟨pre, post, hsplit, hpc, hall⟩
    · rw [dispatch_eq_found bk sub rest evs c hc]
      by_cases hrc : c.func (sub :: rest).length (sub :: rest) = UNKNOWN_COMMAND
      · rw [if_pos hrc]
      · rw [if_neg hrc]
    · rw [dispatch_eq_found bk sub rest evs c hc]
      by_cases hrc : c.func (sub :: rest).length (sub :: rest) = UNKNOWN_COMMAND
      · rw [if_pos hrc]; simp
      · rw [if_neg hrc]; simp
  · intro hnone
    have hc : findCmd bk.commands sub = none := by
      apply List.find?_eq_none.mpr
      intro c hcmem
      simp [hnone c hcmem]
    exact dispatch_eq_notfound bk sub rest evs hc
  · intro bks fp argv g bn vb evs0 pevs h2 hp hg
    exact main_eq_of_probe_found bks fp argv sub rest g bn vb evs0 bk pevs h2 hp hg

/-- Claim C1 witness: concrete instantiation on `sampleBackend` and the
subcommand "read". -/
theorem dispatch_first_match_spec_witness :
    (∃ pre post, sampleBackend.commands = pre ++ readCmd :: post ∧
        strncmp_eq "read" readCmd.name 32 = true ∧
        ∀ d ∈ pre, strncmp_eq "read" d.name 32 = false) ∧
    (dispatch sampleBackend ["read"] []).1 = readCmd.func 1 ["read"] ∧
    Event.call readCmd.name 1 ["read"] ∈ (dispatch sampleBackend ["read"] []).2 :=
  (dispatch_first_match_spec sampleBackend "read" [] []).1 readCmd rfl

/-- Claim C2 counterexample: a handler that runs and returns the value equal
to UNKNOWN_COMMAND still triggers the unknown-command error message and usage
text, contradicting the claim that they are emitted only when no handler
matched. The status is still propagated verbatim. -/
theorem dispatch_passthrough_counterexample :
    Event.call "read" 1 ["read"] ∈ (dispatch confusingBackend ["read"] []).2 ∧
    Event.error (errUnknownCommand "read") ∈ (dispatch confusingBackend ["read"] []).2 ∧
    Event.usageText ∈ (dispatch confusingBackend ["read"] []).2 ∧
    (dispatch confusingBackend ["read"] []).1 = UNKNOWN_COMMAND := by
  decide

/-- Claim C2 amended: the handler's status is propagated unchanged to the
dispatch result for every integer it returns, but the unknown-command error
message and usage text are emitted exactly when the final status equals
UNKNOWN_COMMAND — that is, when no handler matched, or when the invoked
handler itself returned the UNKNOWN_COMMAND value. -/
theorem dispatch_passthrough_amended (bk : Backend) (sub : String) (rest : List String) :
    (∀ c, findCmd bk.commands sub = some c →
      (dispatch bk (sub :: rest) []).1 = c.func (sub :: rest).length (sub :: rest)) ∧
    ((Event.error (errUnknownCommand sub) ∈ (dispatch bk (sub :: rest) []).2 ∧
        Event.usageText ∈ (dispatch bk (sub :: rest) []).2) ↔
      (dispatch bk (sub :: rest) []).1 = UNKNOWN_COMMAND) := by
  constructor
  · intro c hc
    rw [dispatch_eq_found bk sub rest [] c hc]
    by_cases hrc : c.func (sub :: rest).length (sub :: rest) = UNKNOWN_COMMAND
    · rw [if_pos hrc]
    · rw [if_neg hrc]
  · cases hf : findCmd bk.commands sub with
    | none =>
      rw [dispatch_eq_notfound bk sub rest [] hf]
      simp
    | some c =>
      rw [dispatch_eq_found bk sub rest [] c hf]
      by_cases hrc : c.func (sub :: rest).length (sub :: rest) = UNKNOWN_COMMAND
      · rw [if_pos hrc]
        simpa using hrc
      · rw [if_neg hrc]
        simpa using hrc

/-- Claim C2 amended witness: concrete pass-through of the opaque status 7. -/
theorem dispatch_passthrough_amended_witness :
    (dispatch sampleBackend ["read"] []).1 = readCmd.func 1 ["read"] :=
  (dispatch_passthrough_amended sampleBackend "read" []).1 readCmd rfl

/-- Claim C3: when the mode was resolved and the platform probe returns
NOT_FOUND, the program does not fail: the stored backend name is the
requested mode's default name, and the registry lookup on it either resolves
a Backend — in which case dispatch proceeds as if probing had succeeded
(plus a warning) — or fails, in which case the program prints a warning and
exits with SUCCESS without invoking any handler. -/
theorem probe_fallback_spec (bks : List Backend) (fp : FileProbe) (argv : List String)
    (sub : String) (rest : List String) (g : Bool) (bn : String) (vb : Bool)
    (evs0 pevs : List Event) (h2 : 2 ≤ argv.length)
    (hp : parseFlags argv.tail none false [] = FlagsResult.cont (sub :: rest) (some (g, bn)) vb evs0)
    (hg : get_backend bks fp = some (none, pevs)) :
    ((g, bn) = (false, HOST_BACKEND) ∨ (g, bn) = (true, GUEST_BACKEND)) ∧
    (∀ bk, is_known_backend bks bn = some bk →
      main bks fp argv
        = some (dispatch bk (sub :: rest)
            (evs0 ++ pevs ++ [Event.warning (warnAssuming bk.name)]))) ∧
    (is_known_backend bks bn = none →
      main bks fp argv = some (SUCCESS, evs0 ++ pevs ++ [Event.warning (warnModeDisabled g)]) ∧
      countCalls (evs0 ++ pevs ++ [Event.warning (warnModeDisabled g)]) = 0) := by
  have hev0 : countCalls evs0 = 0 := by
    have hc := parseFlags_countCalls argv.tail none false []
    rw [hp] at hc
    simpa [FlagsResult.events, countCalls] using hc
  have hpev0 : countCalls pevs = 0 := get_backend_no_calls bks fp none pevs hg
  refine ⟨?_, ?_, ?_⟩
  · have hmode := parseFlags_mode_inv
      (fun o => o = none ∨ o = some (false, HOST_BACKEND) ∨ o = some (true, GUEST_BACKEND))
      (by simp) (by simp) argv.tail none false [] (by simp) _ _ _ _ hp
    rcases hmode with hcase | hcase | hcase
    · cases hcase
    · left; exact Option.some.inj hcase
    · right; exact Option.some.inj hcase
  · intro bk hk
    exact main_eq_of_fallback_found bks fp argv sub rest g bn vb evs0 bk pevs h2 hp hg hk
  · intro hk
    refine ⟨main_eq_of_fallback_miss bks fp argv sub rest g bn vb evs0 pevs h2 hp hg hk, ?_⟩
    rw [countCalls_append, countCalls_append, hev0, hpev0]
    simp [countCalls, Event.isCall]

/-- Claim C3 witness: with an empty registry and the status file absent,
requesting host mode warns and exits with SUCCESS without any handler
invocation. -/
theorem probe_fallback_spec_witness :
    main [] FileProbe.absent ["secvarctl", "-m", "host", "read"]
      = some (SUCCESS,
          [] ++ [Event.warning warnNoSupport] ++ [Event.warning (warnModeDisabled false)]) ∧
    countCalls ([] ++ [Event.warning warnNoSupport] ++ [Event.warning (warnModeDisabled false)])
      = 0 :=
  (probe_fallback_spec [] FileProbe.absent ["secvarctl", "-m", "host", "read"] "read" []
    false HOST_BACKEND false [] [Event.warning warnNoSupport] (by decide) rfl rfl).2.2 rfl

/-- Claim C4: the prober reads at most N bytes of the status file, where N is
the length of the longest registered backend name (for a non-empty registry
`maxNameLen` computes exactly that maximum, and the result of probing file
contents depends only on their first N characters), and never raises a hard
error: file absent, read yielding no data, and data matching no registered
backend each produce a warning and the NOT_FOUND (null backend) result. -/
theorem get_backend_soft_fail_spec (bks : List Backend) (s1 s2 : String) (n : Nat) :
    (get_backend bks FileProbe.absent = some (none, [Event.warning warnNoSupport])) ∧
    (bks ≠ [] → get_backend bks FileProbe.noData = some (none, [Event.warning warnNoData])) ∧
    (maxNameLen bks = some n →
      is_known_backend bks (String.mk (s1.toList.take n)) = none →
      get_backend bks (FileProbe.data s1) = some (none, [Event.warning warnBadFormat])) ∧
    (bks ≠ [] → ∃ m, maxNameLen bks = some m ∧
      (∀ b ∈ bks, b.name.length ≤ m) ∧ ∃ b ∈ bks, b.name.length = m) ∧
    (maxNameLen bks = some n → s1.toList.take n = s2.toList.take n →
      get_backend bks (FileProbe.data s1) = get_backend bks (FileProbe.data s2)) := by
  refine ⟨rfl, ?_, ?_, fun h => maxNameLen_spec bks h, ?_⟩
  · intro hne
    obtain ⟨m, hm, -, -⟩ := maxNameLen_spec bks hne
    simp only [get_backend, hm]
  · intro hm hk
    simp only [get_backend, hm, hk]
  · intro hm htake
    simp only [get_backend, hm, htake]

/-- Claim C4 witness: with the host backend registered, an unreadable status
file warns and returns the null backend. -/
theorem get_backend_soft_fail_spec_witness :
    get_backend [hostBackend []] FileProbe.noData = some (none, [Event.warning warnNoData]) :=
  (get_backend_soft_fail_spec [hostBackend []] "" "" 0).2.1 (by simp)

/-- Claim C5: the registry lookup succeeds on a candidate exactly when the
candidate begins with some registered backend's name (prefix comparison over
the registered name's length), returns the first such backend in
registration order, and for every backend registered in the program's
`backends[]` array, looking up exactly its name returns it. -/
theorem is_known_backend_spec (bks : List Backend) (cand : String) :
    ((is_known_backend bks cand).isSome ↔ ∃ b ∈ bks, b.name.toList <+: cand.toList) ∧
    (∀ b, is_known_backend bks cand = some b →
      ∃ pre post, bks = pre ++ b :: post ∧ b.name.toList <+: cand.toList ∧
        ∀ d ∈ pre, ¬ d.name.toList <+: cand.toList) ∧
    (∀ (hc gc : Bool) (htbl gtbl : List Command) (b : Backend),
      b ∈ backends hc gc htbl gtbl →
      is_known_backend (backends hc gc htbl gtbl) b.name = some b) := by
  refine ⟨?_, ?_, ?_⟩
  · rw [is_known_backend, List.find?_isSome]
    constructor
    · rintro ⟨b, hb, hpb⟩
      exact ⟨b, hb, (strncmp_eq_self_len cand b.name).mp hpb⟩
    · rintro ⟨b, hb, hpre⟩
      exact ⟨b, hb, (strncmp_eq_self_len cand b.name).mpr hpre⟩
  · intro b hb
    obtain ⟨pre, post, hsplit, hpb, hall⟩ := find?_split _ _ _ hb
    refine ⟨pre, post, hsplit, (strncmp_eq_self_len cand b.name).mp hpb, ?_⟩
    intro d hd hpre
    have := (strncmp_eq_self_len cand d.name).mpr hpre
    rw [hall d hd] at this
    cases this
  · intro hc gc htbl gtbl b hb
    cases hc <;> cases gc
    · simp [backends] at hb
    · simp [backends] at hb ⊢
      subst hb
      exact List.find?_cons_of_pos _ (strncmp_eq_self _ _)
    · simp [backends] at hb ⊢
      subst hb
      exact List.find?_cons_of_pos _ (strncmp_eq_self _ _)
    · simp [backends] at hb ⊢
      rcases hb with hb1 | hb2
      · subst hb1
        exact List.find?_cons_of_pos _ (strncmp_eq_self _ _)
      · subst hb2
        show List.find? (fun b2 => strncmp_eq (guestBackend gtbl).name b2.name b2.name.length)
            [hostBackend htbl, guestBackend gtbl] = some (guestBackend gtbl)
        rw [List.find?_cons_of_neg]
        · exact List.find?_cons_of_pos _ (strncmp_eq_self _ _)
        · show ¬ strncmp_eq GUEST_BACKEND HOST_BACKEND HOST_BACKEND.length = true
          decide

/-- Claim C5 witness: with both backends compiled in, looking up the guest
backend's exact name returns the guest backend (the host entry, checked
first, does not prefix-match). -/
theorem is_known_backend_spec_witness :
    is_known_backend (backends true true [] []) (guestBackend []).name
      = some (guestBackend []) :=
  (is_known_backend_spec (backends true true [] []) (guestBackend []).name).2.2 true true [] []
    (guestBackend []) (by simp [backends])

/-- Claim C6: a `-m`/`--mode` flag followed by a token other than the exact
literals "host" or "guest", or followed by no token at all, makes the
program warn, print usage and exit with the SUCCESS code; likewise a
completed flag phase with a subcommand but no mode prints usage and exits
with SUCCESS; in all these cases no backend lookup or dispatch occurs (the
result is the same for every registry and platform file, and the trace
records no handler call). -/
theorem bad_mode_success_exit_spec :
    (∀ (flag m : String) (rest : List String) (mode : Option (Bool × String)) (vb : Bool)
        (evs : List Event),
      (flag = "-m" ∨ flag = "--mode") → m ≠ "guest" → m ≠ "host" →
      parseFlags (flag :: m :: rest) mode vb evs
        = FlagsResult.exit SUCCESS (evs ++ [Event.warning (warnUnknownMode m)] ++ usage)) ∧
    (∀ (flag : String) (mode : Option (Bool × String)) (vb : Bool) (evs : List Event),
      (flag = "-m" ∨ flag = "--mode") →
      parseFlags [flag] mode vb evs
        = FlagsResult.exit SUCCESS (evs ++ [Event.warning warnModeNeeded] ++ usage)) ∧
    (∀ (bks : List Backend) (fp : FileProbe) (argv : List String) (rc : Int)
        (evs : List Event),
      2 ≤ argv.length → parseFlags argv.tail none false [] = FlagsResult.exit rc evs →
      main bks fp argv = some (rc, evs) ∧ countCalls evs = 0) ∧
    (∀ (bks : List Backend) (fp : FileProbe) (argv : List String) (sub : String)
        (rest : List String) (vb : Bool) (evs : List Event),
      2 ≤ argv.length →
      parseFlags argv.tail none false [] = FlagsResult.cont (sub :: rest) none vb evs →
      main bks fp argv = some (SUCCESS, evs ++ usage) ∧ countCalls (evs ++ usage) = 0) := by
  refine ⟨?_, ?_, ?_, ?_⟩
  · intro flag m rest mode vb evs hflag hg hh
    rcases hflag with rfl | rfl
    · rw [parseFlags.eq_3, if_neg (by decide), if_neg (by decide), if_neg (by decide),
        if_pos (by decide), if_neg hg, if_neg hh]
    · rw [parseFlags.eq_3, if_neg (by decide), if_neg (by decide), if_neg (by decide),
        if_pos (by decide), if_neg hg, if_neg hh]
  · intro flag mode vb evs hflag
    rcases hflag with rfl | rfl
    · rw [parseFlags.eq_2, if_neg (by decide), if_neg (by decide), if_neg (by decide),
        if_pos (by decide)]
    · rw [parseFlags.eq_2, if_neg (by decide), if_neg (by decide), if_neg (by decide),
        if_pos (by decide)]
  · intro bks fp argv rc evs h2 hp
    refine ⟨main_eq_of_exit bks fp argv rc evs h2 hp, ?_⟩
    have hc := parseFlags_countCalls argv.tail none false []
    rw [hp] at hc
    simpa [FlagsResult.events, countCalls] using hc
  · intro bks fp argv sub rest vb evs h2 hp
    refine ⟨main_eq_of_no_mode bks fp argv sub rest vb evs h2 hp, ?_⟩
    have hc := parseFlags_countCalls argv.tail none false []
    rw [hp] at hc
    have hev0 : countCalls evs = 0 := by
      simpa [FlagsResult.events, countCalls] using hc
    rw [countCalls_append, hev0]
    decide

/-- Claim C6 witness: `-m bogus` warns and exits with SUCCESS. -/
theorem bad_mode_success_exit_spec_witness :
    parseFlags ["-m", "bogus", "read"] none false []
      = FlagsResult.exit SUCCESS ([] ++ [Event.warning (warnUnknownMode "bogus")] ++ usage) :=
  bad_mode_success_exit_spec.1 "-m" "bogus" ["read"] none false [] (Or.inl rfl)
    (by decide) (by decide)

/-- Claim C7: zero arguments after the program name yield usage text and the
ARG_PARSE_FAIL exit code, exhausted flags with no remaining subcommand yield
an error plus usage and ARG_PARSE_FAIL, and ARG_PARSE_FAIL is distinct from
the SUCCESS code of the bad-mode paths. -/
theorem missing_subcommand_fail_spec :
    (∀ (bks : List Backend) (fp : FileProbe) (argv : List String), argv.length < 2 →
      main bks fp argv = some (ARG_PARSE_FAIL, usage)) ∧
    (∀ (bks : List Backend) (fp : FileProbe) (argv : List String)
        (mode : Option (Bool × String)) (vb : Bool) (evs : List Event),
      2 ≤ argv.length →
      parseFlags argv.tail none false [] = FlagsResult.cont [] mode vb evs →
      main bks fp argv = some (ARG_PARSE_FAIL, evs ++ [Event.error errNoCommands] ++ usage)) ∧
    ARG_PARSE_FAIL ≠ SUCCESS :=
  ⟨fun bks fp argv h => main_eq_of_short bks fp argv h,
    fun bks fp argv mode vb evs h2 hp => main_eq_of_no_subcommand bks fp argv mode vb evs h2 hp,
    by decide⟩

/-- Claim C7 witness: invoking with no arguments after the program name. -/
theorem missing_subcommand_fail_spec_witness :
    main [] FileProbe.absent ["secvarctl"] = some (ARG_PARSE_FAIL, usage) :=
  missing_subcommand_fail_spec.1 [] FileProbe.absent ["secvarctl"] (by decide)

/-- Claim C8: at most one handler invocation happens during an entire run:
every defined run of `main` produces a trace with at most one handler-call
event. -/
theorem at_most_one_handler_spec (bks : List Backend) (fp : FileProbe) (argv : List String)
    (rc : Int) (evs : List Event) (h : main bks fp argv = some (rc, evs)) :
    countCalls evs ≤ 1 := by
  by_cases hlen : argv.length < 2
  · rw [main_eq_of_short bks fp argv hlen] at h
    simp only [Option.some.injEq, Prod.mk.injEq] at h
    obtain ⟨-, hevs⟩ := h
    subst hevs
    decide
  · have h2 : 2 ≤ argv.length := by omega
    have hevents := parseFlags_countCalls argv.tail none false []
    cases hp : parseFlags argv.tail none false [] with
    | exit rc0 evs0 =>
      rw [hp] at hevents
      have hev0 : countCalls evs0 = 0 := by
        simpa [FlagsResult.events, countCalls] using hevents
      rw [main_eq_of_exit bks fp argv rc0 evs0 h2 hp] at h
      simp only [Option.some.injEq, Prod.mk.injEq] at h
      obtain ⟨-, hevs⟩ := h
      subst hevs
      omega
    | cont args mode vb evs0 =>
      rw [hp] at hevents
      have hev0 : countCalls evs0 = 0 := by
        simpa [FlagsResult.events, countCalls] using hevents
      cases args with
      | nil =>
        rw [main_eq_of_no_subcommand bks fp argv mode vb evs0 h2 hp] at h
        simp only [Option.some.injEq, Prod.mk.injEq] at h
        obtain ⟨-, hevs⟩ := h
        subst hevs
        rw [countCalls_append, countCalls_append, hev0]
        decide
      | cons sub rest =>
        cases mode with
        | none =>
          rw [main_eq_of_no_mode bks fp argv sub rest vb evs0 h2 hp] at h
          simp only [Option.some.injEq, Prod.mk.injEq] at h
          obtain ⟨-, hevs⟩ := h
          subst hevs
          rw [countCalls_append, hev0]
          decide
        | some p =>
          obtain ⟨g, bn⟩ := p
          cases hg : get_backend bks fp with
          | none =>
            rw [main_eq_of_probe_undef bks fp argv sub rest g bn vb evs0 h2 hp hg] at h
            cases h
          | some pr =>
            obtain ⟨obk, pevs⟩ := pr
            have hpev0 : countCalls pevs = 0 := get_backend_no_calls bks fp obk pevs hg
            cases obk with
            | some bk =>
              rw [main_eq_of_probe_found bks fp argv sub rest g bn vb evs0 bk pevs
                h2 hp hg] at h
              have hevs : evs = (dispatch bk (sub :: rest) (evs0 ++ pevs)).2 := by
                rw [Option.some.inj h]
              rw [hevs]
              have hd := dispatch_countCalls bk (sub :: rest) (evs0 ++ pevs)
              rw [countCalls_append, hev0, hpev0] at hd
              omega
            | none =>
              cases hk : is_known_backend bks bn with
              | some bk =>
                rw [main_eq_of_fallback_found bks fp argv sub rest g bn vb evs0 bk pevs
                  h2 hp hg hk] at h
                have hevs : evs = (dispatch bk (sub :: rest)
                    (evs0 ++ pevs ++ [Event.warning (warnAssuming bk.name)])).2 := by
                  rw [Option.some.inj h]
                rw [hevs]
                have hd := dispatch_countCalls bk (sub :: rest)
                  (evs0 ++ pevs ++ [Event.warning (warnAssuming bk.name)])
                have hw : countCalls [Event.warning (warnAssuming bk.name)] = 0 := by
                  simp [countCalls, Event.isCall]
                rw [countCalls_append, countCalls_append, hev0, hpev0, hw] at hd
                omega
              | none =>
                rw [main_eq_of_fallback_miss bks fp argv sub rest g bn vb evs0 pevs
                  h2 hp hg hk] at h
                simp only [Option.some.injEq, Prod.mk.injEq] at h
                obtain ⟨-, hevs⟩ := h
                subst hevs
                have hw : countCalls [Event.warning (warnModeDisabled g)] = 0 := by
                  simp [countCalls, Event.isCall]
                rw [countCalls_append, countCalls_append, hev0, hpev0, hw]
                omega

/-- Claim C8 witness: a concrete defined run. -/
theorem at_most_one_handler_spec_witness : countCalls usage ≤ 1 :=
  at_most_one_handler_spec [] FileProbe.absent ["secvarctl"] ARG_PARSE_FAIL usage rfl

/-- Claim C9: a leading flag token starting with a dash that is none of the
recognized flags makes the parser exit immediately with SUCCESS after
printing only usage text (no error message); through `main` the result is
`some (SUCCESS, usage)` for every registry and platform file, so no backend
lookup and no dispatch occur. -/
theorem unknown_flag_usage_spec :
    (∀ (a : String) (rest : List String) (mode : Option (Bool × String)) (vb : Bool)
        (evs : List Event),
      isFlagToken a = true →
      a ≠ "--usage" → a ≠ "--help" → a ≠ "-h" → a ≠ "-m" → a ≠ "--mode" →
      a ≠ "-v" → a ≠ "--verbose" →
      parseFlags (a :: rest) mode vb evs = FlagsResult.exit SUCCESS (evs ++ usage)) ∧
    (∀ (bks : List Backend) (fp : FileProbe) (prog a : String) (rest : List String),
      isFlagToken a = true →
      a ≠ "--usage" → a ≠ "--help" → a ≠ "-h" → a ≠ "-m" → a ≠ "--mode" →
      a ≠ "-v" → a ≠ "--verbose" →
      main bks fp (prog :: a :: rest) = some (SUCCESS, usage)) ∧
    (usage = [Event.usageText] ∧ countCalls usage = 0) := by
  have key : ∀ (a : String) (rest : List String) (mode : Option (Bool × String)) (vb : Bool)
      (evs : List Event),
      isFlagToken a = true →
      a ≠ "--usage" → a ≠ "--help" → a ≠ "-h" → a ≠ "-m" → a ≠ "--mode" →
      a ≠ "-v" → a ≠ "--verbose" →
      parseFlags (a :: rest) mode vb evs = FlagsResult.exit SUCCESS (evs ++ usage) := by
    intro a rest mode vb evs ht h1 h2 h3 h4 h5 h6 h7
    cases rest with
    | nil =>
      rw [parseFlags.eq_2, if_neg (by simp [ht]), if_neg h1, if_neg (not_or.mpr ⟨h2, h3⟩),
        if_neg (not_or.mpr ⟨h4, h5⟩), if_neg (not_or.mpr ⟨h6, h7⟩)]
    | cons m rest2 =>
      rw [parseFlags.eq_3, if_neg (by simp [ht]), if_neg h1, if_neg (not_or.mpr ⟨h2, h3⟩),
        if_neg (not_or.mpr ⟨h4, h5⟩), if_neg (not_or.mpr ⟨h6, h7⟩)]
  refine ⟨key, ?_, rfl, by decide⟩
  intro bks fp prog a rest ht h1 h2 h3 h4 h5 h6 h7
  have hp := key a rest none false [] ht h1 h2 h3 h4 h5 h6 h7
  have hm := main_eq_of_exit bks fp (prog :: a :: rest) SUCCESS ([] ++ usage)
    (by simp only [List.length_cons]; omega) hp
  simpa using hm

/-- Claim C9 witness: the unrecognized flag `-x`. -/
theorem unknown_flag_usage_spec_witness :
    main [] FileProbe.absent ["secvarctl", "-x", "read"] = some (SUCCESS, usage) :=
  unknown_flag_usage_spec.2.1 [] FileProbe.absent "secvarctl" "-x" ["read"] (by decide)
    (by decide) (by decide) (by decide) (by decide) (by decide) (by decide) (by decide)

/-- Claim C10: the prober is safe only when at least one backend is
registered: with an empty registry the seed read `backends[0].name` of the
maximum-size computation is out of bounds (modelled as `none`, and
`get_backend` on an existing status file hits it), while for every non-empty
registry the index is in bounds and the computed read size equals the
maximum registered name length. -/
theorem probe_bounds_safety_spec (fp : FileProbe) (bks : List Backend) :
    (maxNameLen [] = none) ∧
    (fp ≠ FileProbe.absent → get_backend [] fp = none) ∧
    (bks ≠ [] → ∃ n, maxNameLen bks = some n ∧
      (∀ b ∈ bks, b.name.length ≤ n) ∧ ∃ b ∈ bks, b.name.length = n) := by
  refine ⟨rfl, ?_, fun h => maxNameLen_spec bks h⟩
  intro hne
  cases fp with
  | absent => cases hne rfl
  | noData => rfl
  | data s => rfl

/-- Claim C10 witness: the empty registry with an existing but unreadable
status file reaches the out-of-bounds read. -/
theorem probe_bounds_safety_spec_witness : get_backend [] FileProbe.noData = none :=
  (probe_bounds_safety_spec FileProbe.noData []).2.1 (by decide)

end Secvarctl
